import Mathlib

/-!
Verification of the collaborative grocery-list application core.

This file gives a shallow embedding, in Lean 4, of the data model and the
operations of the application (item/category stores, the pure
ordering/grouping engine, the list registry lookup, serialization, and the
local merge functions of the realtime change-feed bridge), together with
theorems settling the behavioural claims about them.

Modelling conventions:
* JavaScript strings are Lean `String`s; the JS string operations
  `trim`, `toUpperCase`, `toLowerCase` are modelled character-wise on
  `String.data` (`strTrim`, `strToUpper`, `strToLower`), which agrees with
  the JS builtins on the ASCII inputs the application manipulates.
* The durable store (Supabase/PostgreSQL) is an external collaborator.  Its
  tables are modelled as Lean lists of rows (`StoreState`), a
  `SELECT ... ORDER BY x DESC LIMIT 1` as the maximum row, a
  `.single()` response as `Except StoreFailure row` (error code `PGRST116`
  when no row matches), and SQL `ILIKE` as the pattern matcher
  `ilikeMatch` (wildcards `%` and `_`, backslash escape, case-insensitive).
  An injectable `Option StoreFailure` argument models "any other store
  failure".  Row identifiers and `created_at` timestamps generated by the
  store are passed in as explicit arguments.
* `Array.prototype.sort` with a consistent comparator is a stable sort; it
  is modelled by `List.mergeSort` with the boolean relation
  `comparator a b ≤ 0`.
* `Date.parse`/`getTime` (used by the item comparator) and
  `String.prototype.localeCompare` (used by the category comparator) are
  platform builtins; they are modelled as explicit function parameters
  `getTime : String → Int` and `lc : String → String → Int`.
* Fallible operations return `Except ApiError _`; returning `.error`
  corresponds to throwing, and produces no state change.
-/

/-- A grocery item row (`items` table / `Item` interface). -/
structure Item where
  id : String
  list_id : String
  name : String
  category : String
  bought : Bool
  created_at : String
deriving Repr, DecidableEq

/-- A category row (`categories` table / `Category` interface). -/
structure Category where
  id : String
  list_id : String
  name : String
  is_default : Bool
  display_order : Int
  created_at : String
deriving Repr, DecidableEq

/-- A list row (`lists` table / `List` interface; named `ListRow` because
`List` is taken in Lean). -/
structure ListRow where
  id : String
  code : String
  created_at : String
deriving Repr, DecidableEq

/-- The `ApiError` shape thrown by the api layer.  Only the error `code`
(kind) is semantically meaningful; the localized `message`/`details`
payloads are presentation-only and omitted. -/
structure ApiError where
  code : String
deriving Repr, DecidableEq

/-- An error reported by the underlying store (PostgREST error shape). -/
structure StoreFailure where
  code : String
deriving Repr, DecidableEq

/-- The rows of one list's `categories` and `items` tables. -/
structure StoreState where
  categories : List Category
  items : List Item
deriving Repr, DecidableEq

/-- Character-wise model of `String.prototype.trim`. -/
def trimChars (cs : List Char) : List Char :=
  (((cs.dropWhile Char.isWhitespace).reverse).dropWhile Char.isWhitespace).reverse

/-- `s.trim()` on JS strings. -/
def strTrim (s : String) : String := ⟨trimChars s.data⟩

/-- `s.toUpperCase()` on JS strings. -/
def strToUpper (s : String) : String := ⟨s.data.map Char.toUpper⟩

/-- `s.toLowerCase()` on JS strings. -/
def strToLower (s : String) : String := ⟨s.data.map Char.toLower⟩

/-- `isValidItemName` (utils): the trimmed name is non-empty. -/
def isValidItemName (name : String) : Bool :=
  0 < (strTrim name).data.length

/-- `isValidCategoryName` (utils): the trimmed name is non-empty. -/
def isValidCategoryName (name : String) : Bool :=
  0 < (strTrim name).data.length

/-- One character of the list-code suffix alphabet `[A-Z0-9]`. -/
def isUpperAlnum (ch : Char) : Bool :=
  ('A' ≤ ch && ch ≤ 'Z') || ('0' ≤ ch && ch ≤ '9')

/-- `isValidListCodeFormat` (utils): the regex `^GRO-[A-Z0-9]\x7b7\x7d$`. -/
def isValidListCodeFormat (code : String) : Bool :=
  match code.data with
  | 'G' :: 'R' :: 'O' :: '-' :: rest => rest.length == 7 && rest.all isUpperAlnum
  | _ => false

/-- The fixed reassignment target `DEFAULT_REASSIGNMENT_CATEGORY`. -/
def DEFAULT_REASSIGNMENT_CATEGORY : String := "Altro"

/-- `addItem(listId, name, category)` from the item store.  The store's
generated `id` and `created_at` and a possible insert failure of the
external store are explicit arguments.  Both validation errors are raised
before the insert is attempted, and the category store is never consulted:
the embedding takes no category data at all, mirroring that any non-empty
category string is accepted. -/
def addItem (listId name category : String) (insertFailure : Option StoreFailure)
    (genId genCreatedAt : String) : Except ApiError Item :=
  if !(isValidItemName name) then
    .error ⟨"INVALID_INPUT"⟩
  else if category == "" || (strTrim category).data.length == 0 then
    .error ⟨"INVALID_INPUT"⟩
  else
    match insertFailure with
    | some _ => .error ⟨"DATABASE_ERROR"⟩
    | none =>
      .ok { id := genId, list_id := listId, name := strTrim name,
            category := category, bought := false, created_at := genCreatedAt }

/-- The error kind of an api result, if it is an error. -/
def errorCode? {α : Type} (r : Except ApiError α) : Option String :=
  match r with
  | .error e => some e.code
  | .ok _ => none

/-- The comparator passed to `Array.prototype.sort` by
`sortItemsWithinCategory`: unbought before bought, then ascending by
`new Date(created_at).getTime()`; the `Date` builtin is the parameter
`getTime`. -/
def itemCompare (getTime : String → Int) (a b : Item) : Int :=
  if a.bought != b.bought then (if a.bought then 1 else -1)
  else getTime a.created_at - getTime b.created_at

/-- `sortItemsWithinCategory(items)`: a stable sort of a copy of the input
by `itemCompare` (JS stable sort = `mergeSort` on `comparator ≤ 0`). -/
def sortItemsWithinCategory (getTime : String → Int) (items : List Item) : List Item :=
  items.mergeSort (fun a b => decide (itemCompare getTime a b ≤ 0))

/-- The comparator passed to `Array.prototype.sort` by `sortCategories`:
defaults first, defaults by `display_order`, customs by
`name.localeCompare`; the `localeCompare` builtin is the parameter `lc`. -/
def categoryCompare (lc : String → String → Int) (a b : Category) : Int :=
  if a.is_default && !b.is_default then -1
  else if !a.is_default && b.is_default then 1
  else if a.is_default && b.is_default then a.display_order - b.display_order
  else lc a.name b.name

/-- `sortCategories(categories)`: a stable sort of a copy of the input by
`categoryCompare`. -/
def sortCategories (lc : String → String → Int) (categories : List Category) : List Category :=
  categories.mergeSort (fun a b => decide (categoryCompare lc a b ≤ 0))

theorem itemLe_trans (getTime : String → Int) (a b c : Item)
    (hab : decide (itemCompare getTime a b ≤ 0) = true)
    (hbc : decide (itemCompare getTime b c ≤ 0) = true) :
    decide (itemCompare getTime a c ≤ 0) = true := by
  simp only [decide_eq_true_eq] at *
  unfold itemCompare at *
  cases ha : a.bought <;> cases hb : b.bought <;> cases hc : c.bought <;>
    simp [ha, hb, hc] at * <;> omega

theorem itemLe_total (getTime : String → Int) (a b : Item) :
    (decide (itemCompare getTime a b ≤ 0) || decide (itemCompare getTime b a ≤ 0)) = true := by
  simp only [Bool.or_eq_true, decide_eq_true_eq]
  unfold itemCompare
  cases ha : a.bought <;> cases hb : b.bought <;> simp [ha, hb] <;> omega

/-- C5: `sortItemsWithinCategory` returns a permutation of its input (no
loss or duplication, and the input itself — being a Lean value — is
untouched: the source sorts a copy `[...items]`), in which every unbought
item precedes every bought item and, within each bought-state partition,
items are non-decreasing by `created_at` (as interpreted by the `Date`
builtin `getTime`). -/
theorem C5_sortItemsWithinCategory_spec (getTime : String → Int) (items : List Item) :
    (sortItemsWithinCategory getTime items).Perm items ∧
    (sortItemsWithinCategory getTime items).Pairwise
      (fun a b => (a.bought = true → b.bought = true) ∧
        (a.bought = b.bought → getTime a.created_at ≤ getTime b.created_at)) := by
  constructor
  · exact List.mergeSort_perm items _
  · have h := @List.sorted_mergeSort Item (fun a b => decide (itemCompare getTime a b ≤ 0))
      (itemLe_trans getTime) (itemLe_total getTime) items
    refine h.imp ?_
    intro a b hab
    simp only [decide_eq_true_eq] at hab
    unfold itemCompare at hab
    cases ha : a.bought <;> cases hb : b.bought <;> simp [ha, hb] at hab ⊢ <;> omega

/-- A concrete model of the `Date.getTime` builtin used in witnesses. -/
def sampleGetTime (s : String) : Int := (s.data.length : Int)

/-- A concrete bought item. -/
def sampleBoughtItem : Item :=
  { id := "i1", list_id := "l1", name := "latte", category := "Latticini",
    bought := true, created_at := "2024" }

/-- A concrete unbought item. -/
def sampleUnboughtItem : Item :=
  { id := "i2", list_id := "l1", name := "pane", category := "Panetteria",
    bought := false, created_at := "2024-01-02" }

/-- Witness for C5 at a concrete input. -/
theorem C5_witness :
    (sortItemsWithinCategory sampleGetTime [sampleBoughtItem, sampleUnboughtItem]).Perm
      [sampleBoughtItem, sampleUnboughtItem] ∧
    (sortItemsWithinCategory sampleGetTime [sampleBoughtItem, sampleUnboughtItem]).Pairwise
      (fun a b => (a.bought = true → b.bought = true) ∧
        (a.bought = b.bought → sampleGetTime a.created_at ≤ sampleGetTime b.created_at)) :=
  C5_sortItemsWithinCategory_spec sampleGetTime [sampleBoughtItem, sampleUnboughtItem]

/-- A JS `Map<string, Item[]>` is modelled as an insertion-ordered
association list. -/
abbrev ItemsMap : Type := List (String × List Item)

/-- `map.has(k)`. -/
def mapHas (m : ItemsMap) (k : String) : Bool :=
  m.any (fun e => e.1 == k)

/-- `map.get(k) || []`. -/
def mapGetD (m : ItemsMap) (k : String) : List Item :=
  match m.find? (fun e => e.1 == k) with
  | some e => e.2
  | none => []

/-- `map.set(k, v)`: overwrite the binding if present, else append. -/
def mapSet (m : ItemsMap) (k : String) (v : List Item) : ItemsMap :=
  if m.any (fun e => e.1 == k) then
    m.map (fun e => if e.1 == k then (k, v) else e)
  else m ++ [(k, v)]

/-- The `for (const item of items)` loop of `groupItemsByCategory` that
fills `itemsByCategory`: get the existing bucket (or `[]`), push the item,
store it back. -/
def buildItemsByCategory (items : List Item) : ItemsMap :=
  items.foldl (fun m item => mapSet m item.category (mapGetD m item.category ++ [item])) []

/-- The `CategoryWithItems` interface of the sorting module. -/
structure CategoryWithItems where
  category : Category
  items : List Item
deriving Repr, DecidableEq

/-- `groupItemsByCategory(items, categories)`: bucket items by category
name, keep only categories whose bucket exists and is non-empty, sort the
survivors with `sortCategories`, and emit each with its bucket. -/
def groupItemsByCategory (lc : String → String → Int)
    (items : List Item) (categories : List Category) : List CategoryWithItems :=
  let itemsByCategory := buildItemsByCategory items
  let categoriesWithItems := categories.filter
    (fun cat => mapHas itemsByCategory cat.name && 0 < (mapGetD itemsByCategory cat.name).length)
  let sortedCategories := sortCategories lc categoriesWithItems
  sortedCategories.map (fun category => ⟨category, mapGetD itemsByCategory category.name⟩)

theorem rekey_pred_eq (k k2 : String) (v : List Item) :
    (fun e : String × List Item => (if e.1 == k then (k, v) else e).1 == k2)
      = (fun e : String × List Item => e.1 == k2) := by
  funext e
  by_cases h : e.1 = k
  · simp [h]
  · simp [h]

theorem mapGetD_mapSet (m : ItemsMap) (k k2 : String) (v : List Item) :
    mapGetD (mapSet m k v) k2 = if k = k2 then v else mapGetD m k2 := by
  unfold mapSet mapGetD
  by_cases hmem : m.any (fun e => e.1 == k) = true
  · simp only [hmem, if_true, List.find?_map]
    have hcomp : ((fun e : String × List Item => e.1 == k2) ∘
        (fun e => if e.1 == k then (k, v) else e))
        = (fun e : String × List Item => e.1 == k2) := by
      funext e
      exact congrFun (rekey_pred_eq k k2 v) e
    rw [hcomp]
    by_cases hkk : k = k2
    · subst hkk
      obtain ⟨e, he, hek⟩ := List.any_eq_true.mp hmem
      have hsome : (m.find? (fun e => e.1 == k)).isSome := by
        rw [List.find?_isSome]
        exact ⟨e, he, hek⟩
      obtain ⟨e', hfind⟩ := Option.isSome_iff_exists.mp hsome
      have hek' := List.find?_some hfind
      simp only [hfind, Option.map_some', if_true]
      simp only [hek', if_true]
    · have hne : (k == k2) = false := by simp [hkk]
      simp only [hkk, if_false]
      cases hfind : m.find? (fun e => e.1 == k2) with
      | none => simp
      | some e =>
        have he2 := List.find?_some hfind
        have hek : ¬ e.1 = k := by
          have h3 : e.1 = k2 := by simpa using he2
          simp [h3, Ne.symm hkk]
        simp [hek]
  · rw [Bool.not_eq_true] at hmem
    simp only [hmem, Bool.false_eq_true, if_false, List.find?_append]
    by_cases hkk : k = k2
    · subst hkk
      have hfind : m.find? (fun e : String × List Item => e.1 == k) = none := by
        rw [List.find?_eq_none]
        intro e he hc
        have h4 : m.any (fun e : String × List Item => e.1 == k) = true :=
          List.any_eq_true.mpr ⟨e, he, hc⟩
        rw [hmem] at h4
        exact Bool.false_ne_true h4
      simp only [hfind]
      simp [List.find?, Option.or]
    · have hne : (k == k2) = false := by simp [hkk]
      have hsingle : List.find? (fun e : String × List Item => e.1 == k2) [(k, v)] = none := by
        simp [List.find?, hne]
      simp only [hsingle, hkk, if_false, Option.or_none]

theorem mapHas_mapSet (m : ItemsMap) (k k2 : String) (v : List Item) :
    mapHas (mapSet m k v) k2 = ((k == k2) || mapHas m k2) := by
  unfold mapSet mapHas
  by_cases hmem : m.any (fun e => e.1 == k) = true
  · simp only [hmem, if_true, List.any_map]
    have hcomp : ((fun e : String × List Item => e.1 == k2) ∘
        (fun e => if e.1 == k then (k, v) else e))
        = (fun e : String × List Item => e.1 == k2) := by
      funext e
      exact congrFun (rekey_pred_eq k k2 v) e
    rw [hcomp]
    by_cases hkk : k = k2
    · subst hkk
      simp only [beq_self_eq_true, Bool.true_or]
      exact hmem
    · have hne : (k == k2) = false := by simp [hkk]
      simp [hne]
  · simp only [hmem, if_false, List.any_append, List.any_cons, List.any_nil]
    cases h1 : (k == k2) <;> cases h2 : m.any (fun e => e.1 == k2) <;> simp [h1, h2]

theorem mapGetD_build_aux (items : List Item) (m : ItemsMap) (k : String) :
    mapGetD (items.foldl
        (fun m item => mapSet m item.category (mapGetD m item.category ++ [item])) m) k
      = mapGetD m k ++ items.filter (fun i => i.category == k) := by
  induction items generalizing m with
  | nil => simp
  | cons i rest ih =>
    simp only [List.foldl_cons]
    rw [ih]
    rw [mapGetD_mapSet]
    by_cases hk : i.category = k
    · have hk' : (i.category == k) = true := by simp [hk]
      subst hk
      simp [List.filter_cons, hk', List.append_assoc]
    · have hk' : (i.category == k) = false := by simp [hk]
      simp [hk, List.filter_cons, hk']

theorem mapGetD_buildItemsByCategory (items : List Item) (k : String) :
    mapGetD (buildItemsByCategory items) k = items.filter (fun i => i.category == k) := by
  unfold buildItemsByCategory
  rw [mapGetD_build_aux]
  rfl

theorem mapHas_build_aux (items : List Item) (m : ItemsMap) (k : String) :
    mapHas (items.foldl
        (fun m item => mapSet m item.category (mapGetD m item.category ++ [item])) m) k
      = (mapHas m k || items.any (fun i => i.category == k)) := by
  induction items generalizing m with
  | nil => simp
  | cons i rest ih =>
    simp only [List.foldl_cons]
    rw [ih]
    rw [mapHas_mapSet]
    by_cases hk : i.category = k
    · have hk' : (i.category == k) = true := by simp [hk]
      simp [List.any_cons, hk', Bool.or_assoc, Bool.or_comm]
    · have hk' : (i.category == k) = false := by simp [hk]
      simp [List.any_cons, hk', Bool.or_assoc]

theorem mapHas_buildItemsByCategory (items : List Item) (k : String) :
    mapHas (buildItemsByCategory items) k = items.any (fun i => i.category == k) := by
  unfold buildItemsByCategory
  rw [mapHas_build_aux]
  rfl

theorem any_and_filter_length (l : List Item) (p : Item → Bool) :
    (l.any p && decide (0 < (l.filter p).length)) = l.any p := by
  cases h : l.any p
  · simp
  · simp only [Bool.true_and]
    obtain ⟨x, hx, hpx⟩ := List.any_eq_true.mp h
    have : x ∈ l.filter p := List.mem_filter.mpr ⟨hx, hpx⟩
    have : 0 < (l.filter p).length := List.length_pos.mpr (List.ne_nil_of_mem this)
    simp [this]

/-- `groupItemsByCategory` characterized without the intermediate map:
surviving categories are exactly those with at least one item of the same
name, in `sortCategories` order, and each group's bucket is the sublist of
items bearing that category name. -/
theorem groupItemsByCategory_eq (lc : String → String → Int)
    (items : List Item) (categories : List Category) :
    groupItemsByCategory lc items categories =
      (sortCategories lc (categories.filter
          (fun c => items.any (fun i => i.category == c.name)))).map
        (fun c => ⟨c, items.filter (fun i => i.category == c.name)⟩) := by
  unfold groupItemsByCategory
  simp only [mapHas_buildItemsByCategory, mapGetD_buildItemsByCategory,
    any_and_filter_length]

theorem catLe_trans (lc : String → String → Int)
    (hT : ∀ a b c : String, lc a b ≤ 0 → lc b c ≤ 0 → lc a c ≤ 0) :
    ∀ a b c : Category, decide (categoryCompare lc a b ≤ 0) = true →
      decide (categoryCompare lc b c ≤ 0) = true →
      decide (categoryCompare lc a c ≤ 0) = true := by
  intro a b c hab hbc
  simp only [decide_eq_true_eq] at *
  unfold categoryCompare at *
  cases ha : a.is_default <;> cases hb : b.is_default <;> cases hc : c.is_default <;>
    simp [ha, hb, hc] at * <;>
    first
    | omega
    | exact hT _ _ _ hab hbc

theorem catLe_total (lc : String → String → Int)
    (hTot : ∀ a b : String, lc a b ≤ 0 ∨ lc b a ≤ 0) :
    ∀ a b : Category,
      (decide (categoryCompare lc a b ≤ 0) || decide (categoryCompare lc b a ≤ 0)) = true := by
  intro a b
  simp only [Bool.or_eq_true, decide_eq_true_eq]
  unfold categoryCompare
  cases ha : a.is_default <;> cases hb : b.is_default <;> simp [ha, hb] <;>
    first
    | omega
    | exact hTot a.name b.name

theorem filter_or_perm (l : List Item) (p q : Item → Bool)
    (hdisj : ∀ a, ¬(p a = true ∧ q a = true)) :
    (l.filter (fun a => p a || q a)).Perm (l.filter p ++ l.filter q) := by
  induction l with
  | nil => simp
  | cons a rest ih =>
    cases hp : p a <;> cases hq : q a
    · simp only [List.filter_cons, hp, hq, Bool.or_self, Bool.false_eq_true, if_false]
      exact ih
    · simp only [List.filter_cons, hp, hq, Bool.or_true, Bool.false_eq_true, if_false, if_true]
      exact (ih.cons a).trans List.perm_middle.symm
    · simp only [List.filter_cons, hp, hq, Bool.true_or, Bool.false_eq_true, if_false, if_true]
      exact ih.cons a
    · exact absurd ⟨hp, hq⟩ (hdisj a)

theorem flatten_buckets_perm (cats : List Category) (items : List Item)
    (hnd : (cats.map (fun c => c.name)).Nodup) :
    ((cats.map (fun c => items.filter (fun i => i.category == c.name))).flatten).Perm
      (items.filter (fun i => cats.any (fun c => i.category == c.name))) := by
  induction cats with
  | nil => simp
  | cons c rest ih =>
    simp only [List.map_cons, List.flatten_cons, List.any_cons]
    rw [List.map_cons, List.nodup_cons] at hnd
    have hdisj : ∀ i : Item,
        ¬((i.category == c.name) = true ∧
          (rest.any (fun c2 => i.category == c2.name)) = true) := by
      rintro i ⟨h1, h2⟩
      have e1 : i.category = c.name := by simpa using h1
      obtain ⟨c2, hc2, hc2e⟩ := List.any_eq_true.mp h2
      have e2 : i.category = c2.name := by simpa using hc2e
      exact hnd.1 (by rw [← e1, e2]; exact List.mem_map_of_mem _ hc2)
    refine (List.Perm.append_left _ (ih hnd.2)).trans ?_
    exact (filter_or_perm items (fun i => i.category == c.name)
      (fun i => rest.any (fun c2 => i.category == c2.name)) hdisj).symm

/-- An item whose category name matches none of the given categories. -/
def cexItem : Item :=
  { id := "i1", list_id := "l1", name := "latte", category := "Inesistente",
    bought := false, created_at := "t1" }

/-- The catch-all default category, present in the category list. -/
def cexCategory : Category :=
  { id := "c1", list_id := "l1", name := "Altro", is_default := true,
    display_order := 6, created_at := "t0" }

/-- A trivial (constant) model of `localeCompare`. -/
def cexCompare : String → String → Int := fun _ _ => 0

/-- C1 (counterexample): the claim asserts that every input item appears in
exactly one output group, including items whose category name matches none
of the given categories.  At this concrete input the single item matches no
category, and the output of `groupItemsByCategory` is empty, so the item
appears in no group at all: it is lost. -/
theorem C1_counterexample :
    cexItem ∈ [cexItem] ∧ groupItemsByCategory cexCompare [cexItem] [cexCategory] = [] := by
  constructor
  · simp
  · rw [groupItemsByCategory_eq]
    have h2 : (cexItem.category == cexCategory.name) = false := by decide
    simp [sortCategories, List.filter_cons, h2]

/-- C1 (amended): provided the categories bear pairwise-distinct names (as
the per-list uniqueness invariant guarantees), `groupItemsByCategory`
(1) gives every output group exactly the non-empty sublist of items bearing
its category's name, (2) orders the surviving groups exactly as
`sortCategories` orders the categories having at least one item,
(3) hence defaults first by `display_order`, then customs ordered by the
`localeCompare` model `lc` (assumed a total preorder), (4) the groups
together contain exactly the items whose category name matches some given
category (no duplication or loss among those), (5) each such item lies in
exactly one group, and (6) an item whose category name matches none of the
given categories appears in no output group — it is dropped, contrary to
the original claim. -/
theorem C1_groupItemsByCategory_partition
    (lc : String → String → Int)
    (hT : ∀ a b c : String, lc a b ≤ 0 → lc b c ≤ 0 → lc a c ≤ 0)
    (hTot : ∀ a b : String, lc a b ≤ 0 ∨ lc b a ≤ 0)
    (items : List Item) (categories : List Category)
    (hnames : (categories.map (fun c : Category => c.name)).Nodup) :
    (∀ g ∈ groupItemsByCategory lc items categories,
        g.items = items.filter (fun i => i.category == g.category.name) ∧ g.items ≠ []) ∧
    ((groupItemsByCategory lc items categories).map (fun g => g.category)
        = sortCategories lc (categories.filter
            (fun c => items.any (fun i => i.category == c.name)))) ∧
    ((groupItemsByCategory lc items categories).map (fun g => g.category)).Pairwise
      (fun a b => (a.is_default = false → b.is_default = false) ∧
        (a.is_default = true → b.is_default = true → a.display_order ≤ b.display_order) ∧
        (a.is_default = false → b.is_default = false → lc a.name b.name ≤ 0)) ∧
    (((groupItemsByCategory lc items categories).map (fun g => g.items)).flatten).Perm
      (items.filter (fun i => categories.any (fun c => i.category == c.name))) ∧
    (∀ i ∈ items, (∃ c ∈ categories, c.name = i.category) →
      ∃ g, g ∈ groupItemsByCategory lc items categories ∧ i ∈ g.items ∧
        ∀ g2, g2 ∈ groupItemsByCategory lc items categories → i ∈ g2.items → g2 = g) ∧
    (∀ i ∈ items, (∀ c ∈ categories, c.name ≠ i.category) →
      ∀ g ∈ groupItemsByCategory lc items categories, i ∉ g.items) := by
  have hmain := groupItemsByCategory_eq lc items categories
  have hperm : (sortCategories lc (categories.filter
      (fun c => items.any (fun i => i.category == c.name)))).Perm
      (categories.filter (fun c => items.any (fun i => i.category == c.name))) :=
    List.mergeSort_perm _ _
  have hndf : ((categories.filter
      (fun c => items.any (fun i => i.category == c.name))).map
        (fun c : Category => c.name)).Nodup :=
    List.Nodup.sublist ((List.filter_sublist _).map _) hnames
  have hndS : ((sortCategories lc (categories.filter
      (fun c => items.any (fun i => i.category == c.name)))).map
        (fun c : Category => c.name)).Nodup :=
    ((hperm.map _).symm).nodup hndf
  have hcats : (groupItemsByCategory lc items categories).map (fun g => g.category)
      = sortCategories lc (categories.filter
          (fun c => items.any (fun i => i.category == c.name))) := by
    rw [hmain, List.map_map]
    simp [Function.comp_def]
  refine ⟨?_, hcats, ?_, ?_, ?_, ?_⟩
  · -- (1) bucket contents and non-emptiness
    intro g hg
    rw [hmain] at hg
    obtain ⟨c, hc, rfl⟩ := List.mem_map.mp hg
    refine ⟨rfl, ?_⟩
    have hcf := hperm.mem_iff.mp hc
    have hpred := (List.mem_filter.mp hcf).2
    obtain ⟨i, hi, hie⟩ := List.any_eq_true.mp hpred
    exact List.ne_nil_of_mem (List.mem_filter.mpr ⟨hi, hie⟩)
  · -- (3) ordering: defaults first by display_order, customs by lc
    rw [hcats]
    have hsorted := List.sorted_mergeSort (catLe_trans lc hT) (catLe_total lc hTot)
      (categories.filter (fun c => items.any (fun i => i.category == c.name)))
    refine hsorted.imp ?_
    intro a b hab
    simp only [decide_eq_true_eq] at hab
    unfold categoryCompare at hab
    cases ha : a.is_default <;> cases hb : b.is_default <;>
      simp [ha, hb] at hab ⊢ <;> omega
  · -- (4) conservation of matched items
    rw [hmain, List.map_map]
    have hcomp : ((fun g : CategoryWithItems => g.items) ∘
        (fun c : Category => (⟨c, items.filter (fun i => i.category == c.name)⟩ :
          CategoryWithItems)))
        = (fun c : Category => items.filter (fun i => i.category == c.name)) := rfl
    rw [hcomp]
    refine ((hperm.map _).flatten).trans ?_
    refine (flatten_buckets_perm _ items hndf).trans ?_
    have hptwise : ∀ i ∈ items,
        ((categories.filter (fun c => items.any (fun i2 => i2.category == c.name))).any
          (fun c => i.category == c.name))
        = (categories.any (fun c => i.category == c.name)) := by
      intro i hi
      by_cases hc : categories.any (fun c => i.category == c.name) = true
      · obtain ⟨c, hcmem, hce⟩ := List.any_eq_true.mp hc
        have hcf : c ∈ categories.filter
            (fun c => items.any (fun i2 => i2.category == c.name)) :=
          List.mem_filter.mpr ⟨hcmem, List.any_eq_true.mpr ⟨i, hi, hce⟩⟩
        rw [hc, List.any_eq_true.mpr ⟨c, hcf, hce⟩]
      · have h5 : ¬ ((categories.filter
            (fun c => items.any (fun i2 => i2.category == c.name))).any
              (fun c => i.category == c.name)) = true := by
          intro habs
          obtain ⟨c, hcm, hce⟩ := List.any_eq_true.mp habs
          exact hc (List.any_eq_true.mpr ⟨c, (List.mem_filter.mp hcm).1, hce⟩)
        rw [Bool.not_eq_true] at hc h5
        rw [hc, h5]
    rw [List.filter_congr hptwise]
  · -- (5) each matched item is in exactly one group
    rintro i hi ⟨c, hcmem, hcname⟩
    have hmatch : (i.category == c.name) = true := by simp [hcname]
    have hcf : c ∈ categories.filter
        (fun c => items.any (fun i2 => i2.category == c.name)) :=
      List.mem_filter.mpr ⟨hcmem, List.any_eq_true.mpr ⟨i, hi, hmatch⟩⟩
    have hcS : c ∈ sortCategories lc (categories.filter
        (fun c => items.any (fun i2 => i2.category == c.name))) :=
      hperm.mem_iff.mpr hcf
    refine ⟨⟨c, items.filter (fun i2 => i2.category == c.name)⟩, ?_, ?_, ?_⟩
    · rw [hmain]
      exact List.mem_map_of_mem _ hcS
    · exact List.mem_filter.mpr ⟨hi, hmatch⟩
    · intro g2 hg2 hig2
      rw [hmain] at hg2
      obtain ⟨c2, hc2S, rfl⟩ := List.mem_map.mp hg2
      have he2 : i.category = c2.name := by
        simpa using (List.mem_filter.mp hig2).2
      have heq : c2 = c :=
        List.inj_on_of_nodup_map hndS hc2S hcS (by rw [← he2, hcname])
      rw [heq]
  · -- (6) unmatched items are dropped
    intro i hi hnone g hg hig
    rw [hmain] at hg
    obtain ⟨c, hcS, rfl⟩ := List.mem_map.mp hg
    have he : i.category = c.name := by
      simpa using (List.mem_filter.mp hig).2
    have hcmem : c ∈ categories := (List.mem_filter.mp (hperm.mem_iff.mp hcS)).1
    exact hnone c hcmem he.symm

/-- A concrete total-preorder model of `localeCompare`, used in witnesses:
string comparison under the lexicographic linear order. -/
def wlc (a b : String) : Int := if a < b then -1 else if b < a then 1 else 0

theorem wlc_le_iff (a b : String) : wlc a b ≤ 0 ↔ a ≤ b := by
  unfold wlc
  by_cases h1 : a < b
  · simp [h1, le_of_lt h1]
  · by_cases h2 : b < a
    · simp [h1, h2, not_le.mpr h2]
    · have : a ≤ b := le_of_not_lt h2
      simp [h1, h2, this]

theorem wlc_trans (a b c : String) (hab : wlc a b ≤ 0) (hbc : wlc b c ≤ 0) :
    wlc a c ≤ 0 := by
  rw [wlc_le_iff] at *
  exact le_trans hab hbc

theorem wlc_total (a b : String) : wlc a b ≤ 0 ∨ wlc b a ≤ 0 := by
  rw [wlc_le_iff, wlc_le_iff]
  exact le_total a b

/-- A concrete item in the dairy category. -/
def wItem : Item :=
  { id := "i1", list_id := "l1", name := "latte", category := "Latticini",
    bought := false, created_at := "t1" }

/-- A concrete default category. -/
def wCatDairy : Category :=
  { id := "c2", list_id := "l1", name := "Latticini", is_default := true,
    display_order := 2, created_at := "t0" }

/-- A concrete custom category. -/
def wCatSnacks : Category :=
  { id := "c7", list_id := "l1", name := "Snacks", is_default := false,
    display_order := 100, created_at := "t0" }

/-- Witness for the amended C1 at a concrete input. -/
theorem C1_witness :
    (∀ g ∈ groupItemsByCategory wlc [wItem] [wCatDairy, wCatSnacks],
        g.items = [wItem].filter (fun i => i.category == g.category.name) ∧ g.items ≠ []) ∧
    ((groupItemsByCategory wlc [wItem] [wCatDairy, wCatSnacks]).map (fun g => g.category)
        = sortCategories wlc ([wCatDairy, wCatSnacks].filter
            (fun c => [wItem].any (fun i => i.category == c.name)))) ∧
    ((groupItemsByCategory wlc [wItem] [wCatDairy, wCatSnacks]).map
        (fun g => g.category)).Pairwise
      (fun a b => (a.is_default = false → b.is_default = false) ∧
        (a.is_default = true → b.is_default = true → a.display_order ≤ b.display_order) ∧
        (a.is_default = false → b.is_default = false → wlc a.name b.name ≤ 0)) ∧
    (((groupItemsByCategory wlc [wItem] [wCatDairy, wCatSnacks]).map
        (fun g => g.items)).flatten).Perm
      ([wItem].filter (fun i => [wCatDairy, wCatSnacks].any (fun c => i.category == c.name))) ∧
    (∀ i ∈ [wItem], (∃ c ∈ [wCatDairy, wCatSnacks], c.name = i.category) →
      ∃ g, g ∈ groupItemsByCategory wlc [wItem] [wCatDairy, wCatSnacks] ∧ i ∈ g.items ∧
        ∀ g2, g2 ∈ groupItemsByCategory wlc [wItem] [wCatDairy, wCatSnacks] →
          i ∈ g2.items → g2 = g) ∧
    (∀ i ∈ [wItem], (∀ c ∈ [wCatDairy, wCatSnacks], c.name ≠ i.category) →
      ∀ g ∈ groupItemsByCategory wlc [wItem] [wCatDairy, wCatSnacks], i ∉ g.items) :=
  C1_groupItemsByCategory_partition wlc wlc_trans wlc_total [wItem] [wCatDairy, wCatSnacks]
    (by decide)

/-- SQL `ILIKE` pattern matching (PostgreSQL semantics), used by the
`.ilike('name', pattern)` store query: `%` matches any sequence, `_` any
single character, backslash escapes the next pattern character, ordinary
characters match case-insensitively; the pattern must cover the whole
string.  A pattern ending in a bare backslash matches nothing (PostgreSQL
raises an error there; no claim depends on that corner). -/
def ilikeMatch : List Char → List Char → Bool
  | [], s => s.isEmpty
  | '%' :: ps, s => s.tails.any (fun t => ilikeMatch ps t)
  | '\\' :: pc :: ps, c :: s2 => (pc.toLower == c.toLower) && ilikeMatch ps s2
  | '\\' :: _, _ => false
  | '_' :: ps, _ :: s2 => ilikeMatch ps s2
  | pc :: ps, c :: s2 => (pc.toLower == c.toLower) && ilikeMatch ps s2
  | _ :: _, [] => false

/-- `categoryNameExists(listId, name)`: does any category row of the list
match the trimmed input under `ILIKE`?  (The source feeds the user-supplied
trimmed name directly to `.ilike` as the pattern.) -/
def categoryNameExists (s : StoreState) (listId name : String) : Bool :=
  (s.categories.filter (fun c => c.list_id == listId)).any
    (fun c => ilikeMatch (strTrim name).data c.name.data)

/-- `createCategory(listId, name)`: validate the name, run the advisory
duplicate check, read `max(display_order)` over the list's categories
(the source's `ORDER BY display_order DESC LIMIT 1` query — note it does
not filter on `is_default`), and insert with `display_order = max + 1`,
seeded at 100 only when the list has no categories at all. -/
def createCategory (s : StoreState) (listId name : String)
    (insertFailure : Option StoreFailure) (genId genCreatedAt : String) :
    Except ApiError Category :=
  if !(isValidCategoryName name) then .error ⟨"INVALID_INPUT"⟩
  else if categoryNameExists s listId name then .error ⟨"DUPLICATE_CATEGORY"⟩
  else
    let nextOrder : Int :=
      match ((s.categories.filter (fun c => c.list_id == listId)).map
          (fun c => c.display_order)).max? with
      | some m => m + 1
      | none => 100
    match insertFailure with
    | some _ => .error ⟨"DATABASE_ERROR"⟩
    | none =>
      .ok { id := genId, list_id := listId, name := strTrim name,
            is_default := false, display_order := nextOrder,
            created_at := genCreatedAt }

/-- A freshly created list: exactly the six seeded default categories
(`DEFAULT_CATEGORIES` with display orders 1–6) and no items. -/
def freshListState : StoreState :=
  { categories := [
      { id := "d1", list_id := "l1", name := "Frutta e Verdura", is_default := true,
        display_order := 1, created_at := "t0" },
      { id := "d2", list_id := "l1", name := "Latticini", is_default := true,
        display_order := 2, created_at := "t0" },
      { id := "d3", list_id := "l1", name := "Carne e Pesce", is_default := true,
        display_order := 3, created_at := "t0" },
      { id := "d4", list_id := "l1", name := "Panetteria", is_default := true,
        display_order := 4, created_at := "t0" },
      { id := "d5", list_id := "l1", name := "Pulizia", is_default := true,
        display_order := 5, created_at := "t0" },
      { id := "d6", list_id := "l1", name := "Altro", is_default := true,
        display_order := 6, created_at := "t0" } ],
    items := [] }

/-- C2 (code bug): in a freshly created list holding only the six default
categories (orders 1–6), the first custom category receives
`display_order` 7, not the 100 the specification promises: the
`max(display_order)` query of `createCategory` ranges over all categories
of the list, not just the custom ones its own comment describes. -/
theorem C2_createCategory_freshList_displayOrder :
    (createCategory freshListState "l1" "Snacks" none "c7" "t7").toOption.map
      (fun c => c.display_order) = some 7 ∧ (7 : Int) ≠ 100 := by
  decide

/-- A list holding one custom category named `Snacks`. -/
def snacksState : StoreState :=
  { categories := [
      { id := "c1", list_id := "l1", name := "Snacks", is_default := false,
        display_order := 100, created_at := "t0" } ],
    items := [] }

/-- C7 (code bug): the name `Snack_` is genuinely unique in a list whose
only category is `Snacks` (their trimmed, lowercased forms differ), yet
`createCategory` rejects it with the duplicate-category error kind: the
advisory check feeds the user-supplied name to SQL `ILIKE` as a pattern,
so the `_` wildcard makes `Snack_` match `Snacks`. -/
theorem C7_createCategory_wildcard_rejects_unique :
    errorCode? (createCategory snacksState "l1" "Snack_" none "c2" "t1")
        = some "DUPLICATE_CATEGORY" ∧
    strToLower (strTrim "Snack_") ≠ strToLower (strTrim "Snacks") := by
  decide

/-- The first store call of `deleteCategory`: bulk-update every item of the
list whose `category` equals the deleted category's name to the fixed
reassignment target. -/
def reassignItemsStep (s : StoreState) (listId catName : String) : StoreState :=
  { s with items := s.items.map (fun i =>
      if i.list_id == listId && i.category == catName then
        { i with category := DEFAULT_REASSIGNMENT_CATEGORY }
      else i) }

/-- The second store call of `deleteCategory`: delete the category row. -/
def deleteCategoryRowStep (s : StoreState) (categoryId : String) : StoreState :=
  { s with categories := s.categories.filter (fun c => !(c.id == categoryId)) }

/-- `deleteCategory(categoryId, listId)`: fetch the category (`.single()`
failure surfaces as a store error), reject defaults, then reassign items
first and delete the category row second.  A failure injected between the
two steps (`deleteFailure`) aborts after `reassignItemsStep`, mirroring the
non-transactional two-call sequence. -/
def deleteCategory (s : StoreState) (categoryId listId : String)
    (updateFailure deleteFailure : Option StoreFailure) : Except ApiError StoreState :=
  match s.categories.find? (fun c => c.id == categoryId) with
  | none => .error ⟨"DATABASE_ERROR"⟩
  | some category =>
    if category.is_default then .error ⟨"INVALID_INPUT"⟩
    else
      match updateFailure with
      | some _ => .error ⟨"DATABASE_ERROR"⟩
      | none =>
        match deleteFailure with
        | some _ => .error ⟨"DATABASE_ERROR"⟩
        | none => .ok (deleteCategoryRowStep (reassignItemsStep s listId category.name)
            categoryId)

/-- C4: when the fetched category is a default, `deleteCategory` rejects
with the invalid-input kind (and, the embedding being pure, no state is
produced); when it is custom, the operation succeeds and the resulting
state has the same number of items, every item of the list that bore the
category's name reassigned to the catch-all, every other item untouched,
the category row removed, and every other category kept. -/
theorem C4_deleteCategory_spec (s : StoreState) (categoryId listId : String) (cat : Category)
    (hfind : s.categories.find? (fun c => c.id == categoryId) = some cat) :
    (cat.is_default = true →
      deleteCategory s categoryId listId none none = .error ⟨"INVALID_INPUT"⟩) ∧
    (cat.is_default = false →
      ∃ s2, deleteCategory s categoryId listId none none = .ok s2 ∧
        s2.items.length = s.items.length ∧
        (∀ i ∈ s.items, i.list_id = listId → i.category = cat.name →
          ({ i with category := DEFAULT_REASSIGNMENT_CATEGORY } : Item) ∈ s2.items) ∧
        (∀ i ∈ s.items, ¬(i.list_id = listId ∧ i.category = cat.name) → i ∈ s2.items) ∧
        (∀ c ∈ s2.categories, c.id ≠ categoryId) ∧
        (∀ c ∈ s.categories, c.id ≠ categoryId → c ∈ s2.categories)) := by
  constructor
  · intro hd
    unfold deleteCategory
    rw [hfind]
    simp [hd]
  · intro hd
    refine ⟨deleteCategoryRowStep (reassignItemsStep s listId cat.name) categoryId,
      ?_, ?_, ?_, ?_, ?_, ?_⟩
    · unfold deleteCategory
      rw [hfind]
      simp [hd]
    · simp [deleteCategoryRowStep, reassignItemsStep]
    · intro i hi h1 h2
      simp only [deleteCategoryRowStep, reassignItemsStep]
      refine List.mem_map.mpr ⟨i, hi, ?_⟩
      simp [h1, h2]
    · intro i hi hno
      simp only [deleteCategoryRowStep, reassignItemsStep]
      refine List.mem_map.mpr ⟨i, hi, ?_⟩
      rw [Classical.not_and_iff_or_not_not] at hno
      rcases hno with h | h
      · have : (i.list_id == listId) = false := by simp [h]
        simp [this]
      · have : (i.category == cat.name) = false := by simp [h]
        simp [this]
    · intro c hc
      simp only [deleteCategoryRowStep, reassignItemsStep] at hc
      have := (List.mem_filter.mp hc).2
      simpa using this
    · intro c hc hne
      simp only [deleteCategoryRowStep, reassignItemsStep]
      exact List.mem_filter.mpr ⟨hc, by simp [hne]⟩

/-- A custom category with two associated items and one item elsewhere. -/
def wDeleteState : StoreState :=
  { categories := [
      { id := "d6", list_id := "l1", name := "Altro", is_default := true,
        display_order := 6, created_at := "t0" },
      { id := "c7", list_id := "l1", name := "Snacks", is_default := false,
        display_order := 100, created_at := "t0" } ],
    items := [
      { id := "i1", list_id := "l1", name := "patatine", category := "Snacks",
        bought := false, created_at := "t1" },
      { id := "i2", list_id := "l1", name := "salatini", category := "Snacks",
        bought := true, created_at := "t2" },
      { id := "i3", list_id := "l1", name := "latte", category := "Latticini",
        bought := false, created_at := "t3" } ] }

/-- Witness for C4 at a concrete input: the fetched category is the custom
`Snacks` category. -/
theorem C4_witness :
    (wDeleteState.categories.find? (fun c => c.id == "c7")
        = some { id := "c7", list_id := "l1", name := "Snacks", is_default := false,
                 display_order := 100, created_at := "t0" }) ∧
    (∃ s2, deleteCategory wDeleteState "c7" "l1" none none = .ok s2 ∧
        s2.items.length = wDeleteState.items.length ∧
        (∀ i ∈ wDeleteState.items, i.list_id = "l1" → i.category = "Snacks" →
          ({ i with category := DEFAULT_REASSIGNMENT_CATEGORY } : Item) ∈ s2.items) ∧
        (∀ i ∈ wDeleteState.items, ¬(i.list_id = "l1" ∧ i.category = "Snacks") →
          i ∈ s2.items) ∧
        (∀ c ∈ s2.categories, c.id ≠ "c7") ∧
        (∀ c ∈ wDeleteState.categories, c.id ≠ "c7" → c ∈ s2.categories)) :=
  ⟨by decide,
   (C4_deleteCategory_spec wDeleteState "c7" "l1"
     { id := "c7", list_id := "l1", name := "Snacks", is_default := false,
       display_order := 100, created_at := "t0" } (by decide)).2 (by decide)⟩

theorem string_eq_empty_iff (t : String) : t = "" ↔ t.data = [] := by
  constructor
  · intro h
    subst h
    rfl
  · intro h
    apply String.ext
    rw [h]

theorem strLength_eq (s : String) : s.length = s.data.length := rfl

theorem strLength_ne_zero (s : String) (h : s.data ≠ []) : s.length ≠ 0 := by
  rw [strLength_eq]
  simpa using fun hh => h (List.length_eq_zero.mp hh)

theorem strLength_zero (s : String) (h : s.data = []) : s.length = 0 := by
  rw [strLength_eq, h]
  rfl

theorem addItem_ok_of_valid (listId name category genId genCreatedAt : String)
    (hname : strTrim name ≠ "") (hcat : strTrim category ≠ "") :
    addItem listId name category none genId genCreatedAt
      = .ok { id := genId, list_id := listId, name := strTrim name,
              category := category, bought := false, created_at := genCreatedAt } := by
  have h1 : (strTrim name).data ≠ [] := fun h => hname ((string_eq_empty_iff _).mpr h)
  have h2 : (strTrim category).data ≠ [] := fun h => hcat ((string_eq_empty_iff _).mpr h)
  have hcatne : category ≠ "" := by
    intro h
    exact h2 (by rw [h]; rfl)
  have hpos1 : 0 < (strTrim name).data.length := List.length_pos.mpr h1
  have hlen1 : (strTrim name).length ≠ 0 := strLength_ne_zero _ h1
  have hlen2 : (strTrim category).length ≠ 0 := strLength_ne_zero _ h2
  unfold addItem isValidItemName
  simp [hpos1, hlen1, hlen2, hcatne]

/-- C6: `addItem` fails with the invalid-input kind exactly when the name
or the category is empty after trimming (both checks precede the store
insert, which the embedding reflects by raising them whatever the injected
insert outcome is), and any call with non-whitespace name and category
succeeds, producing an item with `bought = false`, the trimmed name, and
the category argument taken verbatim — no category store is consulted. -/
theorem C6_addItem_spec (listId name category genId genCreatedAt : String)
    (insertFailure : Option StoreFailure) :
    (errorCode? (addItem listId name category insertFailure genId genCreatedAt)
        = some "INVALID_INPUT" ↔ (strTrim name = "" ∨ strTrim category = "")) ∧
    (strTrim name ≠ "" → strTrim category ≠ "" →
      addItem listId name category none genId genCreatedAt
        = .ok { id := genId, list_id := listId, name := strTrim name,
                category := category, bought := false, created_at := genCreatedAt }) := by
  constructor
  · by_cases h1 : (strTrim name).data = []
    · have hzero : (strTrim name).data.length = 0 := by simp [h1]
      have hname : strTrim name = "" := (string_eq_empty_iff _).mpr h1
      unfold addItem isValidItemName errorCode?
      simp [hzero, hname]
    · have hname : strTrim name ≠ "" := fun h => h1 ((string_eq_empty_iff _).mp h)
      have hpos1 : 0 < (strTrim name).data.length := List.length_pos.mpr h1
      have hlen1 : (strTrim name).length ≠ 0 := strLength_ne_zero _ h1
      by_cases h2 : (strTrim category).data = []
      · have hzero2 : (strTrim category).length = 0 := strLength_zero _ h2
        have hcat : strTrim category = "" := (string_eq_empty_iff _).mpr h2
        unfold addItem isValidItemName errorCode?
        simp [hpos1, hlen1, hzero2, hcat]
      · have hcat : strTrim category ≠ "" := fun h => h2 ((string_eq_empty_iff _).mp h)
        have hcatne : category ≠ "" := by
          intro h
          exact h2 (by rw [h]; rfl)
        have hlen2 : (strTrim category).length ≠ 0 := strLength_ne_zero _ h2
        unfold addItem isValidItemName errorCode?
        cases insertFailure <;> simp [hpos1, hlen1, hlen2, hcatne, hname, hcat]
  · intro hname hcat
    exact addItem_ok_of_valid listId name category genId genCreatedAt hname hcat

/-- Witness for C6 at a concrete input. -/
theorem C6_witness :
    (errorCode? (addItem "l1" " latte " "Latticini" none "i1" "t1")
        = some "INVALID_INPUT" ↔ (strTrim " latte " = "" ∨ strTrim "Latticini" = "")) ∧
    (strTrim " latte " ≠ "" → strTrim "Latticini" ≠ "" →
      addItem "l1" " latte " "Latticini" none "i1" "t1"
        = .ok { id := "i1", list_id := "l1", name := strTrim " latte ",
                category := "Latticini", bought := false, created_at := "t1" }) :=
  C6_addItem_spec "l1" " latte " "Latticini" "i1" "t1" none

/-- C10: the created item's `category` equals the category argument
verbatim (no trimming, no case normalization), so a non-whitespace
category argument that differs from a real category's name — for example
by surrounding whitespace — is accepted, yet `groupItemsByCategory` puts
the resulting item in no group of that category: here the output is empty
altogether. -/
theorem C10_addItem_category_verbatim (listId name c genId genCreatedAt : String)
    (lc : String → String → Int) (cat : Category)
    (hname : strTrim name ≠ "") (hc : strTrim c ≠ "") (hne : c ≠ cat.name) :
    ∃ item, addItem listId name c none genId genCreatedAt = .ok item ∧
      item.category = c ∧
      groupItemsByCategory lc [item] [cat] = [] := by
  refine ⟨_, addItem_ok_of_valid listId name c genId genCreatedAt hname hc, rfl, ?_⟩
  rw [groupItemsByCategory_eq]
  have hfalse : (c == cat.name) = false := by simp [hne]
  simp [List.filter_cons, hfalse, sortCategories]

/-- The category named `X`, against which the padded argument misses. -/
def wCatX : Category :=
  { id := "c9", list_id := "l1", name := "X", is_default := false,
    display_order := 100, created_at := "t0" }

/-- Witness for C10 at the concrete padded category argument `" X "`. -/
theorem C10_witness :
    ∃ item, addItem "l1" "milk" " X " none "i9" "t9" = .ok item ∧
      item.category = " X " ∧
      groupItemsByCategory wlc [item] [wCatX] = [] :=
  C10_addItem_category_verbatim "l1" "milk" " X " "i9" "t9" wlc wCatX
    (by decide) (by decide) (by decide)

/-- The `onItemInsert` realtime callback of the list dashboard: append the
event's item unless one with the same identifier is already present. -/
def onItemInsertMerge (prev : List Item) (item : Item) : List Item :=
  if prev.any (fun i => i.id == item.id) then prev else prev ++ [item]

/-- The item half of the `onCategoryDelete` realtime callback: rewrite
every local item bearing the deleted category's name to `Altro`. -/
def onCategoryDeleteMergeItems (prev : List Item) (oldCategory : Category) : List Item :=
  prev.map (fun item =>
    if item.category == oldCategory.name then { item with category := "Altro" } else item)

/-- The category half of the `onCategoryDelete` realtime callback: drop the
category with the event's identifier. -/
def onCategoryDeleteMergeCategories (prev : List Category) (oldCategory : Category) :
    List Category :=
  prev.filter (fun c => !(c.id == oldCategory.id))

/-- C3: the category-deleted merge removes exactly the category with the
matching identifier and rewrites every local item whose category equals
the deleted category's name to `Altro`, keeping everything else and the
item count; the item-inserted merge leaves the items unchanged when the
identifier is already present and appends the item otherwise. -/
theorem C3_realtime_merge_spec (items : List Item) (cats : List Category)
    (oldCategory : Category) (newItem : Item) :
    (∀ c ∈ onCategoryDeleteMergeCategories cats oldCategory, c.id ≠ oldCategory.id) ∧
    (∀ c ∈ cats, c.id ≠ oldCategory.id → c ∈ onCategoryDeleteMergeCategories cats oldCategory) ∧
    ((onCategoryDeleteMergeItems items oldCategory).length = items.length) ∧
    (∀ i ∈ items, i.category = oldCategory.name →
      ({ i with category := "Altro" } : Item) ∈ onCategoryDeleteMergeItems items oldCategory) ∧
    (∀ i ∈ items, i.category ≠ oldCategory.name →
      i ∈ onCategoryDeleteMergeItems items oldCategory) ∧
    (items.any (fun i => i.id == newItem.id) = true →
      onItemInsertMerge items newItem = items) ∧
    (items.any (fun i => i.id == newItem.id) = false →
      onItemInsertMerge items newItem = items ++ [newItem]) := by
  refine ⟨?_, ?_, ?_, ?_, ?_, ?_, ?_⟩
  · intro c hc
    have := (List.mem_filter.mp hc).2
    simpa using this
  · intro c hc hne
    exact List.mem_filter.mpr ⟨hc, by simp [hne]⟩
  · simp [onCategoryDeleteMergeItems]
  · intro i hi h
    refine List.mem_map.mpr ⟨i, hi, ?_⟩
    simp [h]
  · intro i hi h
    refine List.mem_map.mpr ⟨i, hi, ?_⟩
    have : (i.category == oldCategory.name) = false := by simp [h]
    simp [this]
  · intro h
    simp [onItemInsertMerge, h]
  · intro h
    simp [onItemInsertMerge, h]

/-- A category-deleted event payload used in the C3 witness. -/
def wOldSnacks : Category :=
  { id := "c7", list_id := "l1", name := "Snacks", is_default := false,
    display_order := 100, created_at := "t0" }

/-- An item-inserted event payload used in the C3 witness. -/
def wNewItem : Item :=
  { id := "i1", list_id := "l1", name := "latte", category := "Latticini",
    bought := false, created_at := "t1" }

/-- Witness for C3 at a concrete local state and concrete events. -/
theorem C3_witness :
    (∀ c ∈ onCategoryDeleteMergeCategories [wCatDairy, wOldSnacks] wOldSnacks,
        c.id ≠ wOldSnacks.id) ∧
    (∀ c ∈ [wCatDairy, wOldSnacks], c.id ≠ wOldSnacks.id →
        c ∈ onCategoryDeleteMergeCategories [wCatDairy, wOldSnacks] wOldSnacks) ∧
    ((onCategoryDeleteMergeItems [wNewItem] wOldSnacks).length = [wNewItem].length) ∧
    (∀ i ∈ [wNewItem], i.category = wOldSnacks.name →
      ({ i with category := "Altro" } : Item)
        ∈ onCategoryDeleteMergeItems [wNewItem] wOldSnacks) ∧
    (∀ i ∈ [wNewItem], i.category ≠ wOldSnacks.name →
      i ∈ onCategoryDeleteMergeItems [wNewItem] wOldSnacks) ∧
    (([wNewItem].any (fun i => i.id == wNewItem.id)) = true →
      onItemInsertMerge [wNewItem] wNewItem = [wNewItem]) ∧
    (([wNewItem].any (fun i => i.id == wNewItem.id)) = false →
      onItemInsertMerge [wNewItem] wNewItem = [wNewItem] ++ [wNewItem]) :=
  C3_realtime_merge_spec [wNewItem] [wCatDairy, wOldSnacks] wOldSnacks wNewItem

/-- The `.single()` response of the `lists` lookup: an injected failure if
any, else the first row whose `code` column equals the queried value, else
the PostgREST no-rows error `PGRST116`. -/
def singleByCode (rows : List ListRow) (storeFailure : Option StoreFailure)
    (c : String) : Except StoreFailure ListRow :=
  match storeFailure with
  | some e => .error e
  | none =>
    match rows.find? (fun r => r.code == c) with
    | some row => .ok row
    | none => .error ⟨"PGRST116"⟩

/-- `getListByCode(code)`: reject malformed codes before any lookup, then
query by the uppercased code; `PGRST116` (no rows) becomes a `null`
result, any other store failure a database error. -/
def getListByCode (rows : List ListRow) (storeFailure : Option StoreFailure)
    (code : String) : Except ApiError (Option ListRow) :=
  if !(isValidListCodeFormat code) then .ok none
  else
    match singleByCode rows storeFailure (strToUpper code) with
    | .ok d => .ok (some d)
    | .error e =>
      if e.code == "PGRST116" then .ok none
      else .error ⟨"DATABASE_ERROR"⟩

/-- C8: a string that fails the fixed code format yields the not-found
result whatever the store holds and however it would respond (the lookup is
never consulted); a well-formed code is looked up uppercased, a missing row
yields not-found rather than an error, and any store failure other than the
no-rows code surfaces as a database error, distinct from not-found. -/
theorem C8_getListByCode_spec (rows : List ListRow) (code : String) :
    (isValidListCodeFormat code = false →
      ∀ (rows2 : List ListRow) (storeFailure : Option StoreFailure),
        getListByCode rows2 storeFailure code = .ok none) ∧
    (isValidListCodeFormat code = true →
      ∀ r : ListRow, rows.find? (fun r2 => r2.code == strToUpper code) = some r →
        getListByCode rows none code = .ok (some r)) ∧
    (isValidListCodeFormat code = true →
      rows.find? (fun r2 => r2.code == strToUpper code) = none →
        getListByCode rows none code = .ok none) ∧
    (isValidListCodeFormat code = true →
      ∀ e : StoreFailure, e.code ≠ "PGRST116" →
        getListByCode rows (some e) code = .error ⟨"DATABASE_ERROR"⟩) := by
  refine ⟨?_, ?_, ?_, ?_⟩
  · intro hbad rows2 storeFailure
    unfold getListByCode
    simp [hbad]
  · intro hok r hfind
    unfold getListByCode singleByCode
    rw [hfind]
    simp [hok]
  · intro hok hfind
    unfold getListByCode singleByCode
    rw [hfind]
    simp [hok]
  · intro hok e hne
    unfold getListByCode singleByCode
    simp [hok, hne]

/-- A concrete stored list row. -/
def wListRow : ListRow := { id := "l1", code := "GRO-ABC1234", created_at := "t0" }

/-- Witness for C8: the malformed code `gro-abc1234` (lowercase) is
rejected without lookup, and the well-formed code `GRO-ABC1234` is found. -/
theorem C8_witness :
    (getListByCode [wListRow] none "gro-abc1234" = .ok none) ∧
    (getListByCode [wListRow] none "GRO-ABC1234" = .ok (some wListRow)) :=
  ⟨(C8_getListByCode_spec [wListRow] "gro-abc1234").1 (by decide) [wListRow] none,
   (C8_getListByCode_spec [wListRow] "GRO-ABC1234").2.1 (by decide) wListRow (by decide)⟩

/-- A JSON value tree: the transport encoding produced and consumed by the
`JSON.stringify`/`JSON.parse` builtins, which the serialization helpers
wrap.  The builtins' contract makes `parse (stringify v)` the identity on
such trees, so the embedding works directly on the trees. -/
inductive Json where
  | str (s : String)
  | bool (b : Bool)
  | arr (elems : List Json)
  | obj (fields : List (String × Json))

/-- Property access `parsed.k` on a parsed JSON value. -/
def jsonGet : Json → String → Option Json
  | .obj fields, k => (fields.find? (fun f => f.1 == k)).map (fun f => f.2)
  | _, _ => none

/-- Reading a string-typed field. -/
def asString : Json → Option String
  | .str s => some s
  | _ => none

/-- Reading a boolean-typed field. -/
def asBool : Json → Option Bool
  | .bool b => some b
  | _ => none

/-- `serializeItem(item)`: the six-field object literal handed to
`JSON.stringify`, in the source's field order. -/
def serializeItem (item : Item) : Json :=
  .obj [("id", .str item.id), ("list_id", .str item.list_id),
        ("name", .str item.name), ("category", .str item.category),
        ("bought", .bool item.bought), ("created_at", .str item.created_at)]

/-- `deserializeItem(json)`: read the six fields back off the parsed value
(the source performs the field copies unconditionally; a missing or
mistyped field is `undefined`, modelled by `none`). -/
def deserializeItem (j : Json) : Option Item := do
  let id ← (jsonGet j "id").bind asString
  let lid ← (jsonGet j "list_id").bind asString
  let nm ← (jsonGet j "name").bind asString
  let catg ← (jsonGet j "category").bind asString
  let bt ← (jsonGet j "bought").bind asBool
  let ca ← (jsonGet j "created_at").bind asString
  pure { id := id, list_id := lid, name := nm, category := catg,
         bought := bt, created_at := ca }

/-- `serializeItems(items)`: the array of per-item field-copy objects. -/
def serializeItems (items : List Item) : Json :=
  .arr (items.map (fun item =>
    Json.obj [("id", .str item.id), ("list_id", .str item.list_id),
              ("name", .str item.name), ("category", .str item.category),
              ("bought", .bool item.bought), ("created_at", .str item.created_at)]))

/-- The element-wise traversal of `deserializeItems`: the source's
`parsed.map(...)` of per-item field copies, collecting the results. -/
def deserializeItemsList : List Json → Option (List Item)
  | [] => some []
  | j :: rest =>
    match deserializeItem j, deserializeItemsList rest with
    | some it, some its => some (it :: its)
    | _, _ => none

/-- `deserializeItems(json)`: map the per-item field copies over the parsed
array. -/
def deserializeItems (j : Json) : Option (List Item) :=
  match j with
  | .arr elems => deserializeItemsList elems
  | _ => none

theorem deserialize_serialize_item (item : Item) :
    deserializeItem (serializeItem item) = some item := rfl

theorem deserializeItemsList_map (items : List Item) :
    deserializeItemsList (items.map (fun item =>
      Json.obj [("id", Json.str item.id), ("list_id", Json.str item.list_id),
                ("name", Json.str item.name), ("category", Json.str item.category),
                ("bought", Json.bool item.bought),
                ("created_at", Json.str item.created_at)])) = some items := by
  induction items with
  | nil => rfl
  | cons it rest ih =>
    simp only [List.map_cons, deserializeItemsList]
    have hhead : deserializeItem (serializeItem it) = some it := deserialize_serialize_item it
    unfold serializeItem at hhead
    rw [hhead, ih]

/-- C9: serializing any item (arbitrary identifiers, name, category,
bought flag and timestamp string) and deserializing it back restores every
field, and likewise element-by-element for any list of items. -/
theorem C9_serialize_roundtrip (item : Item) (items : List Item) :
    deserializeItem (serializeItem item) = some item ∧
    deserializeItems (serializeItems items) = some items :=
  ⟨deserialize_serialize_item item, deserializeItemsList_map items⟩

/-- Witness for C9 at a concrete item and list. -/
theorem C9_witness :
    deserializeItem (serializeItem wNewItem) = some wNewItem ∧
    deserializeItems (serializeItems [wNewItem]) = some [wNewItem] :=
  C9_serialize_roundtrip wNewItem [wNewItem]
